import Mathlib

/-!
# Verification of the gorbl DNSBL lookup package

A shallow embedding of `gorbl.go`.  The repository contains two generations of
the same package: an older free-function pair (`query` / `Lookup`) built on the
process-wide default resolver, and a newer client type `RBL` with methods
`LookupIP` / `Lookup` whose resolver is injected at construction.  Both are
embedded here over the same resolver oracle.

DNS is modelled as an oracle (`Resolver`): each resolution call is a pure
function from the query string to the pair of the answer list and an optional
Go error (`none` models a nil error, `some e` a non-nil one), exactly the shape
of the Go return values `(addrs, err)`.
-/

namespace Gorbl

/-- A Go `error` value that is non-nil.  A possibly-nil Go `error` is
`Option Err`, with `none` standing for nil. -/
abbrev Err := String

/-- A `net.IP` value: either a genuine IPv4 address (four octets), for which
`To4()` returns non-nil, or some other address (e.g. IPv6), carried by its
textual form, for which `To4()` returns nil. -/
inductive IP where
  | v4 (a b c d : Nat)
  | v6 (s : String)
deriving Repr, DecidableEq

/-- Go `ip.To4()`: non-nil exactly on IPv4 addresses. -/
def IP.to4 : IP → Option (Nat × Nat × Nat × Nat)
  | .v4 a b c d => some (a, b, c, d)
  | .v6 _ => none

/-- Go `strings.Split(s, ".")`, for the single-character separator used in
`Reverse`: split the character sequence around each occurrence of `'.'`. -/
def stringsSplitDot (s : String) : List String :=
  (s.data.splitOn '.').map fun cs => String.mk cs

/-- Go `strings.Join(parts, ".")`. -/
def stringsJoinDot (parts : List String) : String :=
  String.mk (List.intercalate ['.'] (parts.map String.data))

/-- Go `net.IP.String()`: the dotted quad for an IPv4 address, the carried
textual form otherwise. -/
def IP.str : IP → String
  | .v4 a b c d => stringsJoinDot [toString a, toString b, toString c, toString d]
  | .v6 s => s

/-- The in-place octet swap loop of `Reverse` applied to the split of a
dotted-quad string: swapping positions `i` and `len-1-i` for all
`i < len/2` reverses the list of parts, then the parts are re-joined. -/
def reverseOctets (s : String) : String :=
  stringsJoinDot (stringsSplitDot s).reverse

/-- `Reverse`: reverse the octets of a given IPv4 address
(`64.233.171.108` becomes `108.171.233.64`); empty string when `To4()` is
nil. -/
def Reverse (ip : IP) : String :=
  if (IP.to4 ip).isSome then reverseOctets (IP.str ip)
  else ""

/-- The DNS resolution oracle.  `lookupHost` answers forward lookups of the
constructed blacklist query name (Go `net.LookupHost` /
`resolver.LookupHost`), `lookupTXT` answers TXT lookups (Go `net.LookupTXT` /
`resolver.LookupTXT`) and `lookupIPAddr` resolves a target hostname to IP
addresses (Go `net.LookupIP` / `resolver.LookupIPAddr`).  Each returns the
answers together with an optional error, as in Go. -/
structure Resolver where
  lookupHost : String → List String × Option Err
  lookupTXT : String → List String × Option Err
  lookupIPAddr : String → List IP × Option Err

/-- `Result` holds the individual IP lookup results for each RBL search.
Field defaults are Go's zero values, as produced by a Go struct literal that
omits the field. -/
structure Result where
  address : String := ""
  listed : Bool := false
  listedAddress : String := ""
  text : String := ""
  error : Bool := false
  errorType : Option Err := none
deriving Repr, DecidableEq, Inhabited

/-- `RBLResults` holds the results of the lookup. -/
structure RBLResults where
  list : String := ""
  host : String := ""
  results : List Result := []
deriving Repr, DecidableEq

/-- `RBL` contains the lookup parameters for this blacklist.  The resolver
field models the injected `net.Resolver`. -/
structure RBL where
  hostname : String
  lookupTxt : Bool
  resolver : Resolver

/-- `NewRBL` creates a new RBL struct with the specified hostname and TXT
lookup behaviour.  The resolver argument models the `&net.Resolver{}` handle
bound at construction. -/
def NewRBL (hostname : String) (lookupTxt : Bool) (resolver : Resolver) : RBL :=
  { hostname := hostname, lookupTxt := lookupTxt, resolver := resolver }

/-- The negative `Result` built by `RBL.LookupIP` when the lookup returned no
answers: `Listed: false`, then `Error`/`ErrorType` set only when `err` is
non-nil. -/
def RBL.unlistedResult (ip : IP) (err : Option Err) : Result :=
  let res : Result := { address := IP.str ip, listed := false }
  match err with
  | some _ => { res with error := true, errorType := err }
  | none => res

/-- The loop body of `RBL.LookupIP`: the `Result` built for one answer
`addr`, with the optional TXT lookup (whose error is discarded:
`txt, _ := r.resolver.LookupTXT(ctx, ipHostname)`) and the `Error`/`ErrorType`
fields set only when the host-lookup error `err` is non-nil. -/
def RBL.listedResult (r : RBL) (ip : IP) (ipHostname : String) (err : Option Err)
    (addr : String) : Result :=
  let res : Result := { address := IP.str ip, listed := true, listedAddress := addr }
  let res := if r.lookupTxt then
      match r.resolver.lookupTXT ipHostname with
      | (txt, _) =>
        -- We skip both empty results and errors.
        if txt.length > 0 then { res with text := txt.headI } else res
    else res
  match err with
  | some _ => { res with error := true, errorType := err }
  | none => res

/-- `RBL.LookupIP` looks up the specified IP in the RBL and returns its
response.  The Go `for _, addr := range addrs { ...; ret.Results =
append(ret.Results, res) }` loop is the fold that appends one result per
answer. -/
def RBL.LookupIP (r : RBL) (ip : IP) : RBLResults :=
  let ret : RBLResults := { host := IP.str ip, list := r.hostname, results := [] }
  let ipHostname := Reverse ip ++ "." ++ r.hostname
  match r.resolver.lookupHost ipHostname with
  | (addrs, err) =>
    if addrs.length < 1 then
      { ret with results := [RBL.unlistedResult ip err] }
    else
      { ret with results := addrs.foldl (fun acc addr =>
          acc ++ [r.listedResult ip ipHostname err addr]) [] }

/-- `RBL.Lookup` performs a search for IPs tied to the specified hostname and
returns the response.  The Go `if addrs, err := ...; err == nil` guard is the
match on the error component; the loop appending `qResults.Results...` for
each IPv4 address is the fold. -/
def RBL.Lookup (r : RBL) (targetHost : String) : RBLResults :=
  let ret : RBLResults := { host := targetHost, list := r.hostname, results := [] }
  match r.resolver.lookupIPAddr targetHost with
  | (addrs, none) =>
    { ret with results := addrs.foldl (fun acc addr =>
        if (IP.to4 addr).isSome then acc ++ (r.LookupIP addr).results else acc) [] }
  | (_, some _) => ret

/-- The negative `Result` built by the older free function `query` when the
lookup returned no answers (`ret[0].Error` / `ret[0].ErrorType` set only when
`err` is non-nil). -/
def queryUnlisted (ip : IP) (err : Option Err) : Result :=
  let res : Result := { address := IP.str ip, listed := false }
  match err with
  | some _ => { res with error := true, errorType := err }
  | none => res

/-- The loop body of the older free function `query`: the `Result` built for
one answer `addr` (TXT error discarded: `txt, _ := net.LookupTXT(lookup)`). -/
def queryListed (resolver : Resolver) (lookup : String) (ip : IP) (lookupTxt : Bool)
    (err : Option Err) (addr : String) : Result :=
  let res : Result := { address := IP.str ip, listed := true, listedAddress := addr }
  let res := if lookupTxt then
      match resolver.lookupTXT lookup with
      | (txt, _) => if txt.length > 0 then { res with text := txt.headI } else res
    else res
  match err with
  | some _ => { res with error := true, errorType := err }
  | none => res

/-- The older free function `query(rbl, ip, lookupTxt)`.  It uses the default
resolver (`net.LookupHost` / `net.LookupTXT`), passed here as the oracle. -/
def query (resolver : Resolver) (rbl : String) (ip : IP) (lookupTxt : Bool) : List Result :=
  let lookup := Reverse ip ++ "." ++ rbl
  match resolver.lookupHost lookup with
  | (addrs, err) =>
    if addrs.length < 1 then
      [queryUnlisted ip err]
    else
      addrs.foldl (fun acc addr =>
        acc ++ [queryListed resolver lookup ip lookupTxt err addr]) []

/-- The older free function `Lookup(rblList, targetHost, lookupTxt)`.  It uses
`net.LookupIP` on the default resolver, passed here as the oracle. -/
def Lookup (resolver : Resolver) (rblList : String) (targetHost : String)
    (lookupTxt : Bool) : RBLResults :=
  let r : RBLResults := { list := rblList, host := targetHost }
  match resolver.lookupIPAddr targetHost with
  | (ipl, none) =>
    { r with results := ipl.foldl (fun acc addr =>
        if (IP.to4 addr).isSome then acc ++ query resolver rblList addr lookupTxt else acc) [] }
  | (_, some _) => r

/-- The data-model invariant on a single finding: an unlisted finding carries
no listed address and no text, and an error flag always comes with a non-nil
cause. -/
def resultInvariant (res : Result) : Prop :=
  (res.listed = false → res.listedAddress = "" ∧ res.text = "") ∧
  (res.error = true → res.errorType ≠ none)

/-- A concrete resolver response set: two positive answers for any blacklist
query, a TXT record that arrives together with a non-nil error, and a mixed
IPv4/IPv6 answer for hostname resolution. -/
def listedResolver : Resolver :=
  { lookupHost := fun _ => (["127.0.0.2", "127.0.0.4"], none),
    lookupTXT := fun _ => (["spam source"], some "txt lookup failed"),
    lookupIPAddr := fun _ => ([IP.v4 10 0 0 1, IP.v6 "2001:db8::1", IP.v4 10 0 0 2], none) }

/-- A concrete resolver response set: every lookup fails with no answers. -/
def emptyResolver : Resolver :=
  { lookupHost := fun _ => ([], some "lookup timed out"),
    lookupTXT := fun _ => ([], none),
    lookupIPAddr := fun _ => ([], some "no such host") }

/-- A concrete resolver response set: one usable answer delivered together
with a non-fatal error. -/
def flakyResolver : Resolver :=
  { lookupHost := fun _ => (["127.0.0.2"], some "lame referral"),
    lookupTXT := fun _ => ([], some "txt lookup failed"),
    lookupIPAddr := fun _ => ([IP.v4 10 0 0 1], none) }

/-!
## Helper lemmas

General facts about the folds used to model the Go loops, and about the
decimal rendering of octets needed for the `Reverse` round trip.
-/

theorem foldl_append_singleton {α β : Type} (f : α → β) (l : List α) (acc : List β) :
    l.foldl (fun acc a => acc ++ [f a]) acc = acc ++ l.map f := by
  induction l generalizing acc with
  | nil => simp
  | cons x xs ih => simp [ih]

theorem foldl_guard_append {α β : Type} (p : α → Bool) (f : α → List β) (l : List α)
    (acc : List β) :
    l.foldl (fun acc a => if p a then acc ++ f a else acc) acc
      = acc ++ (l.filter p).flatMap f := by
  induction l generalizing acc with
  | nil => simp
  | cons x xs ih => by_cases h : p x <;> simp [h, ih]

theorem digitChar_ne_dot (n : Nat) : Nat.digitChar n ≠ '.' := by
  by_cases h : n < 16
  · interval_cases n <;> decide
  · have hstar : Nat.digitChar n = '*' := by
      unfold Nat.digitChar
      have h0 : ¬(n = 0) := by omega
      have h1 : ¬(n = 1) := by omega
      have h2 : ¬(n = 2) := by omega
      have h3 : ¬(n = 3) := by omega
      have h4 : ¬(n = 4) := by omega
      have h5 : ¬(n = 5) := by omega
      have h6 : ¬(n = 6) := by omega
      have h7 : ¬(n = 7) := by omega
      have h8 : ¬(n = 8) := by omega
      have h9 : ¬(n = 9) := by omega
      have h10 : ¬(n = 10) := by omega
      have h11 : ¬(n = 11) := by omega
      have h12 : ¬(n = 12) := by omega
      have h13 : ¬(n = 13) := by omega
      have h14 : ¬(n = 14) := by omega
      have h15 : ¬(n = 15) := by omega
      simp only [h0, h1, h2, h3, h4, h5, h6, h7, h8, h9, h10, h11, h12, h13, h14, h15,
        if_false, ite_false]
    rw [hstar]; decide

theorem toDigitsCore_ne_dot (b fuel : Nat) : ∀ (n : Nat) (ds : List Char),
    (∀ c ∈ ds, c ≠ '.') → ∀ c ∈ Nat.toDigitsCore b fuel n ds, c ≠ '.' := by
  induction fuel with
  | zero => intro n ds hds; simpa [Nat.toDigitsCore] using hds
  | succ fuel ih =>
    intro n ds hds
    rw [Nat.toDigitsCore]
    have hcons : ∀ c ∈ Nat.digitChar (n % b) :: ds, c ≠ '.' := by
      intro c hc
      rcases List.mem_cons.mp hc with h | h
      · subst h; exact digitChar_ne_dot (n % b)
      · exact hds c h
    split
    · exact hcons
    · exact ih (n / b) (Nat.digitChar (n % b) :: ds) hcons

theorem toString_nat_ne_dot (n : Nat) : ∀ c ∈ (toString n).data, c ≠ '.' := by
  show ∀ c ∈ ((Nat.toDigits 10 n).asString).data, c ≠ '.'
  exact toDigitsCore_ne_dot 10 (n + 1) n [] (by intro c hc; cases hc)

theorem stringMk_data (s : String) : String.mk s.data = s := rfl

/-- `strings.Split( . )` is a left inverse of `strings.Join( . )` on nonempty
lists of dot-free parts. -/
theorem stringsSplitDot_joinDot (parts : List String) (hne : parts ≠ [])
    (hdot : ∀ s ∈ parts, ∀ c ∈ s.data, c ≠ '.') :
    stringsSplitDot (stringsJoinDot parts) = parts := by
  unfold stringsSplitDot stringsJoinDot
  have hdata : (String.mk (List.intercalate ['.'] (parts.map String.data))).data
      = List.intercalate ['.'] (parts.map String.data) := rfl
  rw [hdata]
  have hx : ∀ l ∈ parts.map String.data, '.' ∉ l := by
    intro l hl
    rcases List.mem_map.mp hl with ⟨s, hs, rfl⟩
    intro hmem
    exact hdot s hs '.' hmem rfl
  have hls : parts.map String.data ≠ [] := by
    simpa using hne
  rw [show List.intercalate ['.'] (parts.map String.data)
      = ['.'].intercalate (parts.map String.data) from rfl]
  rw [List.splitOn_intercalate (parts.map String.data) '.' hx hls]
  rw [List.map_map]
  have : ((fun cs => String.mk cs) ∘ String.data) = id := by
    funext s
    rfl
  rw [this, List.map_id]

/-- Every finding of `RBL.LookupIP` satisfies the data-model invariant,
whatever the resolver answers. -/
theorem lookupIP_inv (r : RBL) (ip : IP) :
    ∀ res ∈ (r.LookupIP ip).results, resultInvariant res := by
  intro res hres
  cases hh : r.resolver.lookupHost (Reverse ip ++ "." ++ r.hostname) with
  | mk addrs err =>
    by_cases hlen : addrs.length < 1
    · simp only [RBL.LookupIP, hh, hlen, if_true, List.mem_singleton] at hres
      subst hres
      unfold RBL.unlistedResult resultInvariant
      cases err <;> simp
    · simp only [RBL.LookupIP, hh, hlen, if_false, foldl_append_singleton,
        List.nil_append] at hres
      rcases List.mem_map.mp hres with ⟨addr, -, rfl⟩
      unfold RBL.listedResult resultInvariant
      cases ht : r.resolver.lookupTXT (Reverse ip ++ "." ++ r.hostname) with
      | mk txt terr =>
        cases err <;> cases hr : r.lookupTxt <;> simp [hr, ht] <;> split <;> simp

/-!
## Claims
-/

/-- C1: when host resolution of the query name yields zero addresses,
`RBL.LookupIP` returns exactly one finding with `listed = false` and empty
`listedAddress` and `text`; the finding carries `error = true` with the
cause attached exactly when that resolution reported a (non-nil) error. -/
theorem lookupIP_no_answers (r : RBL) (ip : IP) (err : Option Err)
    (h : r.resolver.lookupHost (Reverse ip ++ "." ++ r.hostname) = ([], err)) :
    (r.LookupIP ip).results =
      [{ address := IP.str ip, listed := false, listedAddress := "", text := "",
         error := err.isSome, errorType := err }] := by
  cases err with
  | none => simp [RBL.LookupIP, h, RBL.unlistedResult]
  | some e => simp [RBL.LookupIP, h, RBL.unlistedResult]

/-- Witness for C1: a resolution with zero answers and a timeout error
produces the single negative finding with the cause attached. -/
theorem lookupIP_no_answers_witness :
    ((NewRBL "rbl.example.com" false emptyResolver).LookupIP (IP.v4 192 168 1 1)).results =
      [{ address := "192.168.1.1", listed := false, listedAddress := "", text := "",
         error := true, errorType := some "lookup timed out" }] := by
  have h := lookupIP_no_answers (NewRBL "rbl.example.com" false emptyResolver)
    (IP.v4 192 168 1 1) (some "lookup timed out") rfl
  simpa using h

/-- C2: when host resolution yields `N ≥ 1` addresses and the client was
constructed with TXT lookups disabled, `RBL.LookupIP` returns exactly `N`
findings, one per returned address in resolution order, each
`listed = true` with `listedAddress` that address and empty `text`. -/
theorem lookupIP_listed_txt_disabled (r : RBL) (ip : IP) (addrs : List String)
    (err : Option Err)
    (h : r.resolver.lookupHost (Reverse ip ++ "." ++ r.hostname) = (addrs, err))
    (hne : addrs ≠ [])
    (htxt : r.lookupTxt = false) :
    (r.LookupIP ip).results = addrs.map fun addr =>
      { address := IP.str ip, listed := true, listedAddress := addr, text := "",
        error := err.isSome, errorType := err } := by
  have hlen : ¬ (addrs.length < 1) := by
    cases addrs with
    | nil => exact absurd rfl hne
    | cons a as => simp
  simp only [RBL.LookupIP, h, hlen, if_false, foldl_append_singleton, List.nil_append]
  apply List.map_congr_left
  intro addr _
  cases err <;> simp [RBL.listedResult, htxt]

/-- Witness for C2: two answers with TXT lookups disabled give exactly two
listed findings in order, with empty text. -/
theorem lookupIP_listed_txt_disabled_witness :
    ((NewRBL "rbl.example.com" false listedResolver).LookupIP (IP.v4 192 168 1 1)).results =
      [{ address := "192.168.1.1", listed := true, listedAddress := "127.0.0.2", text := "",
         error := false, errorType := none },
       { address := "192.168.1.1", listed := true, listedAddress := "127.0.0.4", text := "",
         error := false, errorType := none }] := by
  have h := lookupIP_listed_txt_disabled (NewRBL "rbl.example.com" false listedResolver)
    (IP.v4 192 168 1 1) ["127.0.0.2", "127.0.0.4"] none rfl (List.cons_ne_nil _ _) rfl
  simpa using h

/-- C3: when host resolution yields at least one answer and the client was
constructed with TXT lookups enabled, every finding's `text` is the first
TXT value for the query name (empty when the TXT resolution returned no
values), and the finding's `error` and `errorType` come from the host
resolution alone — the TXT resolution error `terr` is arbitrary and never
surfaces. -/
theorem lookupIP_txt_enabled (r : RBL) (ip : IP) (addrs txtVals : List String)
    (err terr : Option Err)
    (h : r.resolver.lookupHost (Reverse ip ++ "." ++ r.hostname) = (addrs, err))
    (hne : addrs ≠ [])
    (henabled : r.lookupTxt = true)
    (htxt : r.resolver.lookupTXT (Reverse ip ++ "." ++ r.hostname) = (txtVals, terr)) :
    ∀ res ∈ (r.LookupIP ip).results,
      res.text = txtVals.headD "" ∧ res.error = err.isSome ∧ res.errorType = err := by
  have hlen : ¬ (addrs.length < 1) := by
    cases addrs with
    | nil => exact absurd rfl hne
    | cons a as => simp
  intro res hres
  simp only [RBL.LookupIP, h, hlen, if_false, foldl_append_singleton, List.nil_append] at hres
  rcases List.mem_map.mp hres with ⟨addr, -, rfl⟩
  cases err <;> cases txtVals <;> simp [RBL.listedResult, henabled, htxt]

/-- Witness for C3: with TXT lookups enabled and a TXT response carrying
both a value and an error, a finding takes the first TXT value and shows no
error. -/
theorem lookupIP_txt_enabled_witness :
    ((((NewRBL "rbl.example.com" true listedResolver).LookupIP
        (IP.v4 192 168 1 1)).results.headI).text = "spam source") ∧
    ((((NewRBL "rbl.example.com" true listedResolver).LookupIP
        (IP.v4 192 168 1 1)).results.headI).error = false) ∧
    ((((NewRBL "rbl.example.com" true listedResolver).LookupIP
        (IP.v4 192 168 1 1)).results.headI).errorType = none) := by
  have h := lookupIP_txt_enabled (NewRBL "rbl.example.com" true listedResolver)
    (IP.v4 192 168 1 1) ["127.0.0.2", "127.0.0.4"] ["spam source"] none
    (some "txt lookup failed") rfl (List.cons_ne_nil _ _) rfl rfl
    (((NewRBL "rbl.example.com" true listedResolver).LookupIP
      (IP.v4 192 168 1 1)).results.headI) (by decide)
  simpa using h

/-- C4: when host resolution returns one or more usable addresses together
with a non-fatal (non-nil) error, every finding of that `RBL.LookupIP` call
has `error = true` and that same cause attached. -/
theorem lookupIP_error_uniform (r : RBL) (ip : IP) (addrs : List String) (e : Err)
    (h : r.resolver.lookupHost (Reverse ip ++ "." ++ r.hostname) = (addrs, some e))
    (hne : addrs ≠ []) :
    ∀ res ∈ (r.LookupIP ip).results, res.error = true ∧ res.errorType = some e := by
  have hlen : ¬ (addrs.length < 1) := by
    cases addrs with
    | nil => exact absurd rfl hne
    | cons a as => simp
  intro res hres
  simp only [RBL.LookupIP, h, hlen, if_false, foldl_append_singleton, List.nil_append] at hres
  rcases List.mem_map.mp hres with ⟨addr, -, rfl⟩
  unfold RBL.listedResult
  cases hr : r.lookupTxt <;> simp [hr]

/-- Witness for C4: an answer accompanied by a lame-referral error yields a
finding with the error flag set and that cause attached. -/
theorem lookupIP_error_uniform_witness :
    ((((NewRBL "rbl.example.com" false flakyResolver).LookupIP
        (IP.v4 192 168 1 1)).results.headI).error = true) ∧
    ((((NewRBL "rbl.example.com" false flakyResolver).LookupIP
        (IP.v4 192 168 1 1)).results.headI).errorType = some "lame referral") :=
  lookupIP_error_uniform (NewRBL "rbl.example.com" false flakyResolver)
    (IP.v4 192 168 1 1) ["127.0.0.2"] "lame referral" rfl (List.cons_ne_nil _ _)
    (((NewRBL "rbl.example.com" false flakyResolver).LookupIP
      (IP.v4 192 168 1 1)).results.headI) (by decide)

/-- C5: when hostname resolution succeeds, `RBL.Lookup` produces findings
only for the IPv4 subset of the resolved addresses: one `RBL.LookupIP` call
per IPv4 address in resolution order, appending that call's findings (not
the whole sub-result), preserving per-address and per-finding order. -/
theorem lookup_filters_ipv4 (r : RBL) (targetHost : String) (addrs : List IP)
    (h : r.resolver.lookupIPAddr targetHost = (addrs, none)) :
    (r.Lookup targetHost).results =
      (addrs.filter fun a => (IP.to4 a).isSome).flatMap fun a => (r.LookupIP a).results := by
  simp [RBL.Lookup, h, foldl_guard_append]

/-- Witness for C5: a host resolving to two IPv4 addresses and one IPv6
address yields the concatenated findings of the two IPv4 lookups only. -/
theorem lookup_filters_ipv4_witness :
    ((NewRBL "rbl.example.com" true listedResolver).Lookup "smtp.gmail.com").results =
      [{ address := "10.0.0.1", listed := true, listedAddress := "127.0.0.2",
         text := "spam source", error := false, errorType := none },
       { address := "10.0.0.1", listed := true, listedAddress := "127.0.0.4",
         text := "spam source", error := false, errorType := none },
       { address := "10.0.0.2", listed := true, listedAddress := "127.0.0.2",
         text := "spam source", error := false, errorType := none },
       { address := "10.0.0.2", listed := true, listedAddress := "127.0.0.4",
         text := "spam source", error := false, errorType := none }] := by
  have h := lookup_filters_ipv4 (NewRBL "rbl.example.com" true listedResolver)
    "smtp.gmail.com" [IP.v4 10 0 0 1, IP.v6 "2001:db8::1", IP.v4 10 0 0 2] rfl
  rw [h]
  decide

/-- C6: when hostname resolution fails entirely (a non-nil error) or yields
zero addresses, `RBL.Lookup` returns a result with an empty findings
sequence; no error is raised and the resolution error is recorded nowhere in
the result. -/
theorem lookup_swallows_host_errors (r : RBL) (targetHost : String)
    (h : ((r.resolver.lookupIPAddr targetHost).2.isSome)
      ∨ (r.resolver.lookupIPAddr targetHost).1 = []) :
    r.Lookup targetHost = { list := r.hostname, host := targetHost, results := [] } := by
  cases hp : r.resolver.lookupIPAddr targetHost with
  | mk addrs err =>
    rw [hp] at h
    cases err with
    | some e => simp [RBL.Lookup, hp]
    | none =>
      rcases h with h | h
      · simp at h
      · simp only at h
        subst h
        simp [RBL.Lookup, hp]

/-- Witness for C6: a hostname whose resolution fails with an error yields
the empty result, with the error recorded nowhere. -/
theorem lookup_swallows_host_errors_witness :
    (NewRBL "rbl.example.com" false emptyResolver).Lookup "unknown.example.com" =
      { list := "rbl.example.com", host := "unknown.example.com", results := [] } :=
  lookup_swallows_host_errors (NewRBL "rbl.example.com" false emptyResolver)
    "unknown.example.com" (Or.inl rfl)

/-- C7: for every call, `RBL.LookupIP` returns `list` equal to the client's
zone name and `host` equal to the address's string form, and `RBL.Lookup`
returns `list` equal to the zone name and `host` equal to the hostname
argument, regardless of resolver outcome. -/
theorem lookup_list_host_fields (r : RBL) (ip : IP) (targetHost : String) :
    (r.LookupIP ip).list = r.hostname ∧ (r.LookupIP ip).host = IP.str ip ∧
    (r.Lookup targetHost).list = r.hostname ∧ (r.Lookup targetHost).host = targetHost := by
  refine ⟨?_, ?_, ?_, ?_⟩
  · cases hh : r.resolver.lookupHost (Reverse ip ++ "." ++ r.hostname) with
    | mk addrs err =>
      by_cases hlen : addrs.length < 1 <;> simp [RBL.LookupIP, hh, hlen]
  · cases hh : r.resolver.lookupHost (Reverse ip ++ "." ++ r.hostname) with
    | mk addrs err =>
      by_cases hlen : addrs.length < 1 <;> simp [RBL.LookupIP, hh, hlen]
  · cases hp : r.resolver.lookupIPAddr targetHost with
    | mk addrs err => cases err <;> simp [RBL.Lookup, hp]
  · cases hp : r.resolver.lookupIPAddr targetHost with
    | mk addrs err => cases err <;> simp [RBL.Lookup, hp]

/-- C8: the octet reversal of `Reverse` is self-inverse on every IPv4
dotted-quad string (applying the reversal to the output of `Reverse`
recovers the original string form of the address), `Reverse` of
`192.168.1.1` is `"1.1.168.192"`, and every non-IPv4 address reverses to the
empty string.  `Reverse` is a plain function of its `IP` argument, hence
pure and total. -/
theorem reverse_octets_spec :
    (∀ a b c d : Nat, reverseOctets (Reverse (IP.v4 a b c d)) = IP.str (IP.v4 a b c d)) ∧
    Reverse (IP.v4 192 168 1 1) = "1.1.168.192" ∧
    ∀ s : String, Reverse (IP.v6 s) = "" := by
  refine ⟨?_, by decide, fun s => rfl⟩
  intro a b c d
  have hparts : ∀ s ∈ [toString a, toString b, toString c, toString d],
      ∀ ch ∈ s.data, ch ≠ '.' := by
    intro s hs
    rcases List.mem_cons.mp hs with rfl | hs
    · exact toString_nat_ne_dot a
    rcases List.mem_cons.mp hs with rfl | hs
    · exact toString_nat_ne_dot b
    rcases List.mem_cons.mp hs with rfl | hs
    · exact toString_nat_ne_dot c
    rcases List.mem_cons.mp hs with rfl | hs
    · exact toString_nat_ne_dot d
    cases hs
  have h1 : Reverse (IP.v4 a b c d) = reverseOctets (IP.str (IP.v4 a b c d)) := by
    simp [Reverse, IP.to4]
  rw [h1]
  unfold reverseOctets
  rw [show IP.str (IP.v4 a b c d)
      = stringsJoinDot [toString a, toString b, toString c, toString d] from rfl]
  rw [stringsSplitDot_joinDot _ (by simp) hparts]
  rw [stringsSplitDot_joinDot _ (by simp)
    (fun s hs => hparts s (List.mem_reverse.mp hs))]
  simp

/-- C9: every finding returned by `RBL.LookupIP` or `RBL.Lookup`, for any
resolver behaviour, satisfies the data-model invariant: an unlisted finding
has empty `listedAddress` and `text`, and an error-flagged finding has a
non-nil cause. -/
theorem findings_invariant (r : RBL) (ip : IP) (targetHost : String) :
    (∀ res ∈ (r.LookupIP ip).results, resultInvariant res) ∧
    (∀ res ∈ (r.Lookup targetHost).results, resultInvariant res) := by
  refine ⟨lookupIP_inv r ip, ?_⟩
  intro res hres
  cases hp : r.resolver.lookupIPAddr targetHost with
  | mk addrs err =>
    cases err with
    | some e => simp [RBL.Lookup, hp] at hres
    | none =>
      simp only [RBL.Lookup, hp, foldl_guard_append, List.nil_append] at hres
      rcases List.mem_flatMap.mp hres with ⟨a, -, ha⟩
      exact lookupIP_inv r a res ha

/-- Witness for C9: a concrete listed finding produced by `RBL.Lookup`
satisfies the invariant. -/
theorem findings_invariant_witness :
    resultInvariant
      { address := "10.0.0.1", listed := true, listedAddress := "127.0.0.2",
        text := "spam source", error := false, errorType := none } :=
  (findings_invariant (NewRBL "rbl.example.com" true listedResolver)
    (IP.v4 192 168 1 1) "smtp.gmail.com").2
    { address := "10.0.0.1", listed := true, listedAddress := "127.0.0.2",
      text := "spam source", error := false, errorType := none } (by decide)

/-- C10: the two implementations in the repository are equivalent: against
the same resolver responses, the older free functions `query` and `Lookup`
return the same findings sequence and the same `list` and `host` fields as
`RBL.LookupIP` and `RBL.Lookup` on a client built by `NewRBL` with the same
zone and TXT flag. -/
theorem old_new_equivalent (resolver : Resolver) (rblList targetHost : String)
    (lookupTxt : Bool) :
    (∀ ip : IP, query resolver rblList ip lookupTxt
        = ((NewRBL rblList lookupTxt resolver).LookupIP ip).results) ∧
    Lookup resolver rblList targetHost lookupTxt
        = (NewRBL rblList lookupTxt resolver).Lookup targetHost := by
  have hq : ∀ ip : IP, query resolver rblList ip lookupTxt
      = ((NewRBL rblList lookupTxt resolver).LookupIP ip).results := by
    intro ip
    cases hh : resolver.lookupHost (Reverse ip ++ "." ++ rblList) with
    | mk addrs err =>
      by_cases hlen : addrs.length < 1
      · simp [query, RBL.LookupIP, NewRBL, hh, hlen, queryUnlisted, RBL.unlistedResult]
      · simp only [query, RBL.LookupIP, NewRBL, hh, hlen, if_false,
          foldl_append_singleton, List.nil_append]
        apply List.map_congr_left
        intro addr _
        rfl
  refine ⟨hq, ?_⟩
  cases hp : resolver.lookupIPAddr targetHost with
  | mk addrs err =>
    cases err with
    | some e => simp [Lookup, RBL.Lookup, NewRBL, hp]
    | none =>
      simp only [Lookup, RBL.Lookup, NewRBL, hp]
      simp only [hq]
      rfl

end Gorbl
